import Mathlib

/-!
Shallow embedding of the tombstone/asset registry and zombie-alert core of
`src/menu-bar/src-tauri/src/main.rs` (programmer-corpses).

File-system effects are made explicit: each persisted store is modelled by a
`StoreRead` value describing the outcome of the read-and-parse chain the Rust
code performs (`path.exists()` / `fs::read_to_string` / `serde_json::from_str`):
`absent` (the file does not exist), `corrupt` (it exists but reading or JSON
parsing fails), or `parsed v` (it parses to the value `v`).  Machine integers
(`usize`, `i32`) are modelled as `Nat`/`Int` with the two's-complement
reinterpretations written out explicitly where the code performs them.
-/

namespace ProgrammerCorpses

/-- Mirrors `struct Config` in main.rs. -/
structure Config where
  github_token : Option String
  target_org : String
  scan_interval : Nat
  auto_start : Bool
deriving DecidableEq, Repr

/-- Mirrors `impl Default for Config` in main.rs. -/
def Config.defaultConfig : Config :=
  { github_token := none, target_org := "microsoft", scan_interval := 3600, auto_start := false }

/-- Mirrors `struct Tombstone` in main.rs. -/
structure Tombstone where
  id : String
  name : String
  cause_of_death : String
  epitaph : String
  tags : List String
  original_path : String
  language : Option String
  line_count : Nat
  died_at : String
  resurrected_at : Option String
  resurrected_to : Option String
deriving DecidableEq, Repr

/-- Mirrors `struct Asset` in main.rs (`r#type` is rendered `type`). -/
structure Asset where
  id : String
  name : String
  type : String
  location : String
  language : Option String
  tags : List String
  alive : Bool
  line_count : Nat
deriving DecidableEq, Repr

/-- Mirrors `struct Stats` in main.rs. -/
structure Stats where
  total_assets : Nat
  alive_assets : Nat
  dead_assets : Nat
  total_tombstones : Nat
  resurrected : Nat
  last_scan : String
deriving DecidableEq, Repr

/-- Mirrors `struct ScanResult` in main.rs. -/
structure ScanResult where
  success : Bool
  scanned : Nat
  zombies : Nat
  message : String
deriving DecidableEq, Repr

/-- Mirrors `struct ZombieAlert` in main.rs; `similarity` and `confidence`
are `f64` in the source and kept as `Float`. -/
structure ZombieAlert where
  id : String
  corpse_repo : String
  corpse_path : String
  zombie_repo : String
  zombie_path : String
  similarity : Float
  resurrection_type : String
  confidence : Float
  detected_at : String
  notified : Bool

/-- Mirrors `struct ZombieAlerts` in main.rs (the value returned by
`get_zombie_alerts`). -/
structure ZombieAlerts where
  alerts : List ZombieAlert
  last_check : String
  total_alerts : Nat
  unread_count : Nat

/-- Outcome of reading and JSON-parsing one persisted store file. -/
inductive StoreRead (α : Type) where
  | absent
  | corrupt
  | parsed (value : α)
deriving DecidableEq, Repr

/-- `true` exactly when the read did not produce a parsed value. -/
def StoreRead.failed {α : Type} : StoreRead α → Bool
  | .absent => true
  | .corrupt => true
  | .parsed _ => false

/-- Mirrors `fn get_mock_corpses` in main.rs: the three built-in fallback
tombstones. -/
def get_mock_corpses : List Tombstone :=
  [ { id := "regex-validator"
    , name := "RegEx 验证码解析器"
    , cause_of_death := "被滑块验证干掉了"
    , epitaph := "它曾经能识别99%的验证码，直到验证码学会了自我进化"
    , tags := ["rust", "validator"]
    , original_path := "src/utils/regex-validator.ts"
    , language := some "Rust"
    , line_count := 256
    , died_at := "2024-03-15T00:00:00Z"
    , resurrected_at := none
    , resurrected_to := none }
  , { id := "vue2-admin"
    , name := "Vue 2.0 管理系统"
    , cause_of_death := "Vue 3发布了"
    , epitaph := "Composition API 永不为奴！"
    , tags := ["vue", "admin"]
    , original_path := "packages/admin/src/main.ts"
    , language := some "Vue"
    , line_count := 1542
    , died_at := "2023-01-07T00:00:00Z"
    , resurrected_at := none
    , resurrected_to := none }
  , { id := "jquery-branch"
    , name := "JQuery 分支"
    , cause_of_death := "IE11终于死了"
    , epitaph := "RIP IE, 你终于走了"
    , tags := ["javascript", "jquery"]
    , original_path := "src/legacy/jquery-bridge.js"
    , language := some "JavaScript"
    , line_count := 892
    , died_at := "2022-06-15T00:00:00Z"
    , resurrected_at := none
    , resurrected_to := none } ]

/-- The Rust cast `limit as usize` applied to an `i32` value: the two's
complement bit pattern is sign-extended and reinterpreted as an unsigned
64-bit integer, i.e. reduced modulo `2^64`.  A negative `limit` therefore
becomes a number close to `2^64`. -/
def i32_as_usize (limit : Int) : Nat :=
  (limit % (2 ^ 64 : Int)).toNat

/-- The comparator of `tombstones.sort_by(|a, b| b.died_at.cmp(&a.died_at))`:
element `a` may precede `b` when `b.died_at ≤ a.died_at` (descending by
`died_at`; Rust `String::cmp` is lexicographic, as is the order on `String`
used here). -/
def died_at_desc (a b : Tombstone) : Bool :=
  decide (b.died_at ≤ a.died_at)

/-- Mirrors `fn get_recent_corpses(limit: i32)` in main.rs: a missing file or a
failed read/parse falls back to the mock corpses; otherwise the parsed list is
stably sorted descending by `died_at` (Rust `sort_by` is a stable merge sort)
and the first `limit as usize` records are returned. -/
def get_recent_corpses (store : StoreRead (List Tombstone)) (limit : Int) : List Tombstone :=
  match store with
  | .absent => get_mock_corpses
  | .corrupt => get_mock_corpses
  | .parsed ts => (ts.mergeSort died_at_desc).take (i32_as_usize limit)

/-- Rust `usize` subtraction `a - b` as it behaves in release builds: the
result modulo `2^64`, so an underflow wraps around to a huge value (for
operands below `2^64`, which all Rust `usize` values are). -/
def usize_sub (a b : Nat) : Nat :=
  if b ≤ a then a - b else 2 ^ 64 - (b - a)

/-- Mirrors `fn get_stats` in main.rs.  `assets` is the read of
`.cemetery/asset-index.json`, `mtime` the (formatted) modification time of that
file when metadata succeeds, `tombs` the read of
`.cemetery/tombstone-registry.json`.  Counters start at zero and are only
assigned inside the corresponding successful-parse branch; `last_scan` keeps
the sentinel `"未知"` unless the asset file parsed and its metadata was
readable. -/
def get_stats (assets : StoreRead (List Asset)) (mtime : Option String)
    (tombs : StoreRead (List Tombstone)) : Stats :=
  let total_assets : Nat :=
    match assets with
    | .parsed l => l.length
    | _ => 0
  let alive_assets : Nat :=
    match assets with
    | .parsed l => (l.filter (fun a => a.alive)).length
    | _ => 0
  let last_scan : String :=
    match assets, mtime with
    | .parsed _, some t => t
    | _, _ => "未知"
  let total_tombstones : Nat :=
    match tombs with
    | .parsed l => l.length
    | _ => 0
  let resurrected : Nat :=
    match tombs with
    | .parsed l => (l.filter (fun t => t.resurrected_at.isSome)).length
    | _ => 0
  { total_assets := total_assets
  , alive_assets := alive_assets
  , dead_assets := usize_sub total_assets alive_assets
  , total_tombstones := total_tombstones
  , resurrected := resurrected
  , last_scan := last_scan }

/-- The JSON document stored at `zombie-alerts.json`, as `get_zombie_alerts`
consumes it: `entries` are the raw members of the `alerts` array, each either
successfully deserialized to a `ZombieAlert` (`some`) or rejected by
`serde_json::from_value` (`none`); `last_check` is the string value of the
`last_check` field when present. -/
structure AlertsDoc where
  entries : List (Option ZombieAlert)
  last_check : Option String

/-- Mirrors `fn get_zombie_alerts` in main.rs: on a readable, JSON-parsable
file the alert entries are individually deserialized (`filter_map`, dropping
the failures), `unread_count` counts the alerts with `!a.notified`, and
`last_check` defaults to `"从未检查"`; any read/parse failure yields the empty
default value. -/
def get_zombie_alerts (file : StoreRead AlertsDoc) : ZombieAlerts :=
  match file with
  | .parsed d =>
      let alerts := d.entries.filterMap id
      { alerts := alerts
      , last_check := d.last_check.getD "从未检查"
      , total_alerts := alerts.length
      , unread_count := (alerts.filter (fun a => !a.notified)).length }
  | _ =>
      { alerts := [], last_check := "从未检查", total_alerts := 0, unread_count := 0 }

/-- The mutation loop of `fn mark_alert_read` in main.rs: walk the alerts
array, set `notified = true` on the first alert whose `id` equals `alert_id`,
then `break`; later alerts are untouched. -/
def mark_first (alert_id : String) : List ZombieAlert → List ZombieAlert
  | [] => []
  | a :: rest =>
      if a.id = alert_id then { a with notified := true } :: rest
      else a :: mark_first alert_id rest

/-- Mirrors `fn mark_alert_read` on a well-formed store (every member of the
`alerts` array deserializes): a missing file returns `Ok(())` without writing
(`none ↦ none`); otherwise the document with the first matching alert marked
is written back. -/
def mark_alert_read (alert_id : String) : Option (List ZombieAlert) → Option (List ZombieAlert)
  | none => none
  | some alerts => some (mark_first alert_id alerts)

/-- Mirrors `fn clear_all_alerts` in main.rs: unconditionally overwrites the
store with an empty alert set stamped `last_check = Utc::now()`; the prior
contents (`prior`) are never read.  The written JSON re-reads as the parsed
document with no entries and that timestamp. -/
def clear_all_alerts (prior : StoreRead AlertsDoc) (now : String) : StoreRead AlertsDoc :=
  .parsed { entries := [], last_check := some now }

/-- The file-system state visible to the menu-bar commands. -/
structure World where
  config_file : Option Config
  asset_file : StoreRead (List Asset)
  asset_mtime : Option String
  tombstone_file : StoreRead (List Tombstone)
  alerts_file : StoreRead AlertsDoc

/-- Number of assets in the asset-index file as `get_stats` counts them
(zero when the file is absent or unparsable). -/
def asset_count : StoreRead (List Asset) → Nat
  | .parsed l => l.length
  | _ => 0

/-- Number of tombstones in the registry file as `get_stats` counts them
(zero when the file is absent or unparsable). -/
def tombstone_count : StoreRead (List Tombstone) → Nat
  | .parsed l => l.length
  | _ => 0

/-- Mirrors `async fn trigger_scan` in main.rs: it only calls `get_stats()`
(a pure read of the two registry files), prints, and returns
`Ok(ScanResult { success: true, scanned, zombies, message })`; no store is
written, so the world component is returned unchanged. -/
def trigger_scan (w : World) : ScanResult × World :=
  let stats := get_stats w.asset_file w.asset_mtime w.tombstone_file
  let zombies := stats.total_tombstones
  let scanned := stats.total_assets
  ( { success := true
    , scanned := scanned
    , zombies := zombies
    , message := "扫描完成！发现 " ++ toString zombies ++ " 个墓碑" }
  , w )

/-- Modelled from the spec: the staleness-scan classifier is not under `src/`
(the menu-bar `trigger_scan` only re-reads stats; no code in `src/` consults
`stargazers_count` or `updated_at`).  Per spec §4.2, a repository record is
classified a zombie iff `now - updated_at > threshold AND stargazers_count > 0`.
Times are in days, as integers. -/
def classify_zombie (now updated_at threshold : Int) (stargazers_count : Nat) : Bool :=
  decide (now - updated_at > threshold) && decide (stargazers_count > 0)

/-- Modelled from the spec: the default inactivity threshold, 180 days. -/
def default_threshold : Int := 180

/-- Modelled from the spec: the Tombstone Registry `upsert` is not under
`src/` (the registry file is only read there).  Per spec §4.1: any existing
record with the same `id` is removed, the new record is inserted at the front,
and the sequence is truncated to the first 100 records. -/
def upsert (t : Tombstone) (store : List Tombstone) : List Tombstone :=
  (t :: store.filter (fun s => s.id ≠ t.id)).take 100

/-- A sequence of upserts applied in order to a starting store. -/
def apply_upserts (ops : List Tombstone) (store : List Tombstone) : List Tombstone :=
  ops.foldl (fun s t => upsert t s) store

/-- A minimal tombstone with a given id, used as concrete witness data. -/
def mk_tombstone (s : String) : Tombstone :=
  { id := s, name := s, cause_of_death := "", epitaph := "", tags := []
  , original_path := "", language := none, line_count := 0, died_at := s
  , resurrected_at := none, resurrected_to := none }

/-- An injective encoding of naturals as strings (`n` letters `a`). -/
def nat_id (n : Nat) : String :=
  String.mk (List.replicate n 'a')

/-- 150 tombstones with pairwise distinct ids, used as concrete witness data. -/
def ops150 : List Tombstone :=
  (List.range 150).map (fun n => mk_tombstone (nat_id n))

/-- A concrete already-read alert, used as concrete witness data. -/
def sample_alert : ZombieAlert :=
  { id := "alert-1", corpse_repo := "r", corpse_path := "p", zombie_repo := "zr"
  , zombie_path := "zp", similarity := 0.9, resurrection_type := "copy"
  , confidence := 0.8, detected_at := "2024-01-01T00:00:00Z", notified := true }

/-! ### Helper lemmas -/

theorem died_at_desc_trans (a b c : Tombstone) (hab : died_at_desc a b = true)
    (hbc : died_at_desc b c = true) : died_at_desc a c = true := by
  simp only [died_at_desc, decide_eq_true_eq] at *
  exact le_trans hbc hab

theorem died_at_desc_total (a b : Tombstone) :
    (died_at_desc a b || died_at_desc b a) = true := by
  simp only [died_at_desc, Bool.or_eq_true, decide_eq_true_eq]
  exact le_total b.died_at a.died_at

theorem sorted_mergeSort_died_at (ts : List Tombstone) :
    List.Sorted (fun a b => b.died_at ≤ a.died_at) (ts.mergeSort died_at_desc) := by
  have h := List.sorted_mergeSort died_at_desc_trans died_at_desc_total ts
  exact h.imp (fun hab => by simpa [died_at_desc] using hab)

theorem take_append_take {α : Type _} (n : Nat) (xs l : List α) :
    (xs ++ l.take n).take n = (xs ++ l).take n := by
  rw [List.take_append_eq_append_take, List.take_append_eq_append_take, List.take_take,
    Nat.min_eq_left (Nat.sub_le n xs.length)]

theorem filter_ne_id_of_not_mem (t : Tombstone) (store : List Tombstone)
    (h : t.id ∉ store.map Tombstone.id) :
    store.filter (fun s => s.id ≠ t.id) = store := by
  refine List.filter_eq_self.mpr (fun s hs => ?_)
  simp only [ne_eq, decide_not, Bool.not_eq_eq_eq_not, Bool.not_true, decide_eq_false_iff_not]
  intro heq
  exact h (heq ▸ List.mem_map_of_mem Tombstone.id hs)

theorem upsert_ids_nodup (t : Tombstone) (store : List Tombstone)
    (h : (store.map Tombstone.id).Nodup) :
    ((upsert t store).map Tombstone.id).Nodup := by
  have hsub : ((upsert t store).map Tombstone.id).Sublist
      (((t :: store.filter (fun s => s.id ≠ t.id))).map Tombstone.id) :=
    (List.take_sublist _ _).map _
  refine hsub.nodup ?_
  simp only [List.map_cons]
  refine List.nodup_cons.mpr ⟨?_, ?_⟩
  · intro hmem
    obtain ⟨s, hs, hid⟩ := List.mem_map.mp hmem
    have hp := List.of_mem_filter hs
    simp only [ne_eq, decide_not, Bool.not_eq_eq_eq_not, Bool.not_true,
      decide_eq_false_iff_not] at hp
    exact hp hid
  · exact (((List.filter_sublist store).map Tombstone.id)).nodup h

theorem upsert_length_le (t : Tombstone) (store : List Tombstone) :
    (upsert t store).length ≤ 100 := by
  simp only [upsert, List.length_take]
  exact Nat.min_le_left _ _

theorem apply_upserts_invariant (ops : List Tombstone) :
    ∀ store : List Tombstone, (store.map Tombstone.id).Nodup → store.length ≤ 100 →
      ((apply_upserts ops store).map Tombstone.id).Nodup
      ∧ (apply_upserts ops store).length ≤ 100 := by
  induction ops with
  | nil => exact fun store h1 h2 => ⟨h1, h2⟩
  | cons t rest ih =>
      intro store h1 h2
      have h := ih (upsert t store) (upsert_ids_nodup t store h1) (upsert_length_le t store)
      simpa [apply_upserts, List.foldl_cons] using h

theorem apply_upserts_fresh (ops : List Tombstone) :
    ∀ store : List Tombstone,
      (ops.map Tombstone.id).Nodup →
      (∀ t ∈ ops, t.id ∉ store.map Tombstone.id) →
      store.length ≤ 100 →
      apply_upserts ops store = (ops.reverse ++ store).take 100 := by
  induction ops with
  | nil =>
      intro store _ _ hlen
      simp [apply_upserts, List.take_of_length_le hlen]
  | cons t rest ih =>
      intro store hnodup hfresh hlen
      have hstep : upsert t store = (t :: store).take 100 := by
        unfold upsert
        rw [filter_ne_id_of_not_mem t store (hfresh t (List.mem_cons_self t rest))]
      have hcons : t.id ∉ rest.map Tombstone.id ∧ (rest.map Tombstone.id).Nodup := by
        rw [List.map_cons, List.nodup_cons] at hnodup
        exact hnodup
      have hfresh' : ∀ u ∈ rest, u.id ∉ ((t :: store).take 100).map Tombstone.id := by
        intro u hu hmem
        have hmem' : u.id ∈ (t :: store).map Tombstone.id :=
          ((List.take_sublist 100 (t :: store)).map Tombstone.id).subset hmem
        simp only [List.map_cons, List.mem_cons] at hmem'
        rcases hmem' with h | h
        · exact hcons.1 (h ▸ List.mem_map_of_mem Tombstone.id hu)
        · exact hfresh u (List.mem_cons_of_mem t hu) h
      have hlen' : ((t :: store).take 100).length ≤ 100 := by
        simp only [List.length_take]
        exact Nat.min_le_left _ _
      calc apply_upserts (t :: rest) store
          = apply_upserts rest (upsert t store) := by
            simp [apply_upserts, List.foldl_cons]
        _ = apply_upserts rest ((t :: store).take 100) := by rw [hstep]
        _ = (rest.reverse ++ (t :: store).take 100).take 100 :=
            ih _ hcons.2 hfresh' hlen'
        _ = (rest.reverse ++ (t :: store)).take 100 := take_append_take 100 _ _
        _ = ((t :: rest).reverse ++ store).take 100 := by simp

theorem mark_first_of_not_mem (alert_id : String) (alerts : List ZombieAlert)
    (h : ∀ a ∈ alerts, a.id ≠ alert_id) : mark_first alert_id alerts = alerts := by
  induction alerts with
  | nil => rfl
  | cons a rest ih =>
      simp only [mark_first]
      rw [if_neg (h a (List.mem_cons_self a rest))]
      rw [ih (fun b hb => h b (List.mem_cons_of_mem a hb))]

theorem mark_first_idem (alert_id : String) (alerts : List ZombieAlert) :
    mark_first alert_id (mark_first alert_id alerts) = mark_first alert_id alerts := by
  induction alerts with
  | nil => rfl
  | cons a rest ih =>
      by_cases h : a.id = alert_id
      · simp only [mark_first, if_pos h]
      · simp only [mark_first, if_neg h]
        rw [ih]

theorem mark_first_of_all_notified (alert_id : String) (alerts : List ZombieAlert)
    (h : ∀ a ∈ alerts, a.notified = true) : mark_first alert_id alerts = alerts := by
  induction alerts with
  | nil => rfl
  | cons a rest ih =>
      simp only [mark_first]
      by_cases hid : a.id = alert_id
      · rw [if_pos hid]
        have ha := h a (List.mem_cons_self a rest)
        cases a
        simp_all
      · rw [if_neg hid, ih (fun b hb => h b (List.mem_cons_of_mem a hb))]

theorem ops150_ids_nodup : (ops150.map Tombstone.id).Nodup := by
  have hinj : Function.Injective nat_id := by
    intro n m h
    have hd : List.replicate n 'a' = List.replicate m 'a' := congrArg String.data h
    have hl := congrArg List.length hd
    simpa using hl
  have hmap : ops150.map Tombstone.id = (List.range 150).map nat_id := by
    simp only [ops150, List.map_map]
    rfl
  rw [hmap]
  exact (List.nodup_range 150).map hinj

theorem ops150_length : ops150.length = 150 := by
  simp [ops150]

/-! ### Claim theorems -/

/-- Claim C1: the staleness scan classifies a repository record as a zombie
(dead, worth tombstoning) iff `now - updated_at` exceeds the inactivity
threshold (default 180 days) and `stargazers_count > 0`; in particular a
repository with `updated_at = now - 200` days and 5 stars is classified dead,
and one with 0 stars never is.  (The classifier is modelled from the spec,
§4.2: it is not part of `src/`.) -/
theorem classify_zombie_spec (now updated_at : Int) (stars : Nat) :
    (classify_zombie now updated_at default_threshold stars = true ↔
      (now - updated_at > 180 ∧ 0 < stars))
    ∧ classify_zombie now (now - 200) default_threshold 5 = true
    ∧ classify_zombie now updated_at default_threshold 0 = false := by
  refine ⟨?_, ?_, ?_⟩
  · simp [classify_zombie, default_threshold]
  · simp only [classify_zombie, default_threshold, Bool.and_eq_true, decide_eq_true_eq]
    constructor
    · omega
    · omega
  · simp [classify_zombie]

/-- Claim C2, counterexample: the claim "limit ≤ 0 returns the empty
sequence" fails at `limit = -1` on a parsed store of three tombstones:
`-1 as usize` wraps to `2^64 - 1`, so all records are returned. -/
theorem get_recent_corpses_neg_limit_cex :
    ((-1 : Int) ≤ 0) ∧ get_recent_corpses (.parsed get_mock_corpses) (-1) ≠ [] := by
  have hn : i32_as_usize (-1) = 2 ^ 64 - 1 := by
    unfold i32_as_usize
    omega
  have hlen : (get_recent_corpses (.parsed get_mock_corpses) (-1)).length = 3 := by
    simp only [get_recent_corpses, List.length_take, List.length_mergeSort, hn]
    norm_num [get_mock_corpses]
  refine ⟨by norm_num, fun h => ?_⟩
  rw [h] at hlen
  simp at hlen

/-- Claim C2 (amended): `get_recent_corpses` on a parsed store always returns
records sorted by `died_at` descending; `limit = 0` returns the empty
sequence; a *negative* limit (within i32 range) is cast through `as usize`,
wraps to a huge count, and returns all records; a nonnegative limit at least
the store size returns all records. -/
theorem get_recent_corpses_amended (ts : List Tombstone) (limit : Int) :
    List.Sorted (fun a b => b.died_at ≤ a.died_at) (get_recent_corpses (.parsed ts) limit)
    ∧ (limit = 0 → get_recent_corpses (.parsed ts) limit = [])
    ∧ (limit < 0 → -(2 ^ 31) ≤ limit → ts.length ≤ 2 ^ 63 →
        (get_recent_corpses (.parsed ts) limit).Perm ts)
    ∧ (0 ≤ limit → limit < 2 ^ 31 → ts.length ≤ limit.toNat →
        (get_recent_corpses (.parsed ts) limit).Perm ts) := by
  refine ⟨?_, ?_, ?_, ?_⟩
  · exact List.Pairwise.sublist (List.take_sublist _ _) (sorted_mergeSort_died_at ts)
  · intro h
    subst h
    simp [get_recent_corpses, i32_as_usize]
  · intro hneg hlo hsize
    have hle : ts.length ≤ i32_as_usize limit := by
      unfold i32_as_usize
      omega
    simp only [get_recent_corpses]
    rw [List.take_of_length_le (by rw [List.length_mergeSort]; exact hle)]
    exact List.mergeSort_perm ts _
  · intro hpos hhi hsize
    have hle : ts.length ≤ i32_as_usize limit := by
      unfold i32_as_usize
      omega
    simp only [get_recent_corpses]
    rw [List.take_of_length_le (by rw [List.length_mergeSort]; exact hle)]
    exact List.mergeSort_perm ts _

/-- Witness for claim C2: the amended behaviour exercised on the concrete
three-tombstone mock store at limits 0, -1 and 5. -/
theorem get_recent_corpses_amended_witness :
    get_recent_corpses (.parsed get_mock_corpses) 0 = []
    ∧ (get_recent_corpses (.parsed get_mock_corpses) (-1)).Perm get_mock_corpses
    ∧ (get_recent_corpses (.parsed get_mock_corpses) 5).Perm get_mock_corpses := by
  have hlen : get_mock_corpses.length = 3 := by simp [get_mock_corpses]
  refine ⟨(get_recent_corpses_amended get_mock_corpses 0).2.1 rfl,
    (get_recent_corpses_amended get_mock_corpses (-1)).2.2.1
      (by norm_num) (by norm_num) (by rw [hlen]; norm_num),
    (get_recent_corpses_amended get_mock_corpses 5).2.2.2
      (by norm_num) (by norm_num) (by rw [hlen]; norm_num)⟩

/-- Claim C3: after any sequence of upserts from the empty registry the store
has pairwise-distinct ids and at most 100 records; an upsert puts the new
record at the head and leaves no other record with its id; a sequence of
distinct-id upserts retains exactly the most recently inserted records
(newest first, truncated at 100), so 150 distinct inserts leave exactly the
100 most recent.  (Upsert is modelled from the spec, §4.1: it is not part of
`src/`.) -/
theorem tombstone_registry_upsert_spec (ops : List Tombstone) (t : Tombstone)
    (store : List Tombstone) :
    (((apply_upserts ops []).map Tombstone.id).Nodup
      ∧ (apply_upserts ops []).length ≤ 100)
    ∧ (upsert t store).head? = some t
    ∧ (∀ u ∈ upsert t store, u.id = t.id → u = t)
    ∧ ((ops.map Tombstone.id).Nodup →
        apply_upserts ops [] = (ops.reverse).take 100)
    ∧ ((ops.map Tombstone.id).Nodup → ops.length = 150 →
        (apply_upserts ops []).length = 100
        ∧ apply_upserts ops [] = (ops.reverse).take 100) := by
  have hfresh : ∀ (h : (ops.map Tombstone.id).Nodup),
      apply_upserts ops [] = (ops.reverse).take 100 := by
    intro h
    have := apply_upserts_fresh ops [] h (by simp) (by simp)
    simpa using this
  refine ⟨apply_upserts_invariant ops [] (by simp) (by simp), ?_, ?_, hfresh, ?_⟩
  · show (List.take 100 _).head? = some t
    rw [show (100 : Nat) = 99 + 1 from rfl, List.take_succ_cons]
    rfl
  · intro u hu hid
    have hu' : u ∈ t :: store.filter (fun s => s.id ≠ t.id) :=
      List.take_subset _ _ hu
    rcases List.mem_cons.mp hu' with h | h
    · exact h
    · have hp := List.of_mem_filter h
      simp only [ne_eq, decide_not, Bool.not_eq_eq_eq_not, Bool.not_true,
        decide_eq_false_iff_not] at hp
      exact absurd hid hp
  · intro h h150
    refine ⟨?_, hfresh h⟩
    rw [hfresh h]
    simp [List.length_take, h150]

/-- Witness for claim C3: applied to 150 concrete tombstones with distinct
ids, exactly the 100 most recently inserted remain; a concrete upsert puts
its record at the head. -/
theorem tombstone_registry_upsert_spec_witness :
    ((apply_upserts ops150 []).length = 100
      ∧ apply_upserts ops150 [] = (ops150.reverse).take 100)
    ∧ (upsert (mk_tombstone "x") []).head? = some (mk_tombstone "x") := by
  have H := tombstone_registry_upsert_spec ops150 (mk_tombstone "x") []
  exact ⟨H.2.2.2.2 ops150_ids_nodup ops150_length, H.2.1⟩

/-- Claim C4: when the tombstone registry file is absent, or unreadable or
unparsable, `get_recent_corpses` does not fail: for every limit it returns
the three built-in mock tombstones (a fixed, non-empty placeholder set). -/
theorem get_recent_corpses_fallback (limit : Int) :
    get_recent_corpses .absent limit = get_mock_corpses
    ∧ get_recent_corpses .corrupt limit = get_mock_corpses
    ∧ get_mock_corpses.length = 3
    ∧ get_mock_corpses ≠ [] := by
  refine ⟨rfl, rfl, by simp [get_mock_corpses], by simp [get_mock_corpses]⟩

/-- Claim C5: when both the asset registry and the tombstone registry are
missing or unreadable, `get_stats` succeeds with all counts zero and the
sentinel `"未知"` ("unknown") as `last_scan`. -/
theorem get_stats_missing_stores (assets : StoreRead (List Asset))
    (mtime : Option String) (tombs : StoreRead (List Tombstone))
    (ha : assets.failed = true) (ht : tombs.failed = true) :
    get_stats assets mtime tombs =
      { total_assets := 0, alive_assets := 0, dead_assets := 0
      , total_tombstones := 0, resurrected := 0, last_scan := "未知" } := by
  cases assets with
  | parsed l => simp [StoreRead.failed] at ha
  | absent =>
      cases tombs with
      | parsed l => simp [StoreRead.failed] at ht
      | absent => cases mtime <;> rfl
      | corrupt => cases mtime <;> rfl
  | corrupt =>
      cases tombs with
      | parsed l => simp [StoreRead.failed] at ht
      | absent => cases mtime <;> rfl
      | corrupt => cases mtime <;> rfl

/-- Witness for claim C5: both stores absent. -/
theorem get_stats_missing_stores_witness :
    get_stats .absent none .absent =
      { total_assets := 0, alive_assets := 0, dead_assets := 0
      , total_tombstones := 0, resurrected := 0, last_scan := "未知" } :=
  get_stats_missing_stores .absent none .absent rfl rfl

/-- Claim C6: `get_stats` always returns
`dead_assets = total_assets - alive_assets` without underflow:
`alive_assets` is a filtered count of the same parsed asset list, hence never
exceeds `total_assets`, and the result is never wrapped to a large unsigned
value (`dead_assets ≤ total_assets`). -/
theorem get_stats_dead_assets_no_underflow (assets : StoreRead (List Asset))
    (mtime : Option String) (tombs : StoreRead (List Tombstone)) :
    (get_stats assets mtime tombs).alive_assets ≤ (get_stats assets mtime tombs).total_assets
    ∧ (get_stats assets mtime tombs).dead_assets
        = (get_stats assets mtime tombs).total_assets
          - (get_stats assets mtime tombs).alive_assets
    ∧ (get_stats assets mtime tombs).dead_assets ≤ (get_stats assets mtime tombs).total_assets := by
  have hsub : ∀ (a b : Nat), b ≤ a → usize_sub a b = a - b := fun a b h => by
    simp only [usize_sub, if_pos h]
  cases assets with
  | parsed l =>
      have hle : (List.filter (fun a => a.alive) l).length ≤ l.length :=
        List.length_filter_le _ _
      have h1 : (get_stats (.parsed l) mtime tombs).alive_assets
          = (List.filter (fun a => a.alive) l).length := rfl
      have h2 : (get_stats (.parsed l) mtime tombs).total_assets = l.length := rfl
      have h3 : (get_stats (.parsed l) mtime tombs).dead_assets
          = usize_sub l.length (List.filter (fun a => a.alive) l).length := rfl
      rw [h1, h2, h3, hsub _ _ hle]
      exact ⟨hle, rfl, Nat.sub_le _ _⟩
  | absent => exact ⟨le_refl 0, rfl, le_refl 0⟩
  | corrupt => exact ⟨le_refl 0, rfl, le_refl 0⟩

/-- Claim C7: `get_zombie_alerts` validates each stored alert entry
independently: unparsable entries are dropped without aborting the listing,
`total_alerts` is the number of successfully parsed alerts, and
`unread_count` is the number of those with `notified = false`. -/
theorem get_zombie_alerts_counts (entries : List (Option ZombieAlert)) (lc : Option String) :
    (get_zombie_alerts (.parsed { entries := entries, last_check := lc })).alerts
        = entries.filterMap id
    ∧ (get_zombie_alerts (.parsed { entries := entries, last_check := lc })).total_alerts
        = (entries.filterMap id).length
    ∧ (get_zombie_alerts (.parsed { entries := entries, last_check := lc })).unread_count
        = ((entries.filterMap id).filter (fun a => a.notified = false)).length := by
  have hpred : (fun (a : ZombieAlert) => !a.notified)
      = (fun a => decide (a.notified = false)) := by
    funext a
    cases a.notified <;> rfl
  refine ⟨rfl, rfl, ?_⟩
  simp only [get_zombie_alerts, hpred]

/-- Claim C8: `mark_alert_read` is idempotent and a no-op (not an error)
when the id is unknown or the alert is already read: an unknown id leaves
every alert (and `unread_count`) unchanged, marking twice equals marking
once, an all-read store is unchanged, and a missing store file stays
missing (returning Ok). -/
theorem mark_alert_read_spec (alerts : List ZombieAlert) (alert_id : String)
    (lc : Option String) :
    ((∀ a ∈ alerts, a.id ≠ alert_id) →
        mark_alert_read alert_id (some alerts) = some alerts
        ∧ (get_zombie_alerts (.parsed
              { entries := (mark_first alert_id alerts).map some, last_check := lc })).unread_count
            = (get_zombie_alerts (.parsed
              { entries := alerts.map some, last_check := lc })).unread_count)
    ∧ mark_alert_read alert_id (mark_alert_read alert_id (some alerts))
        = mark_alert_read alert_id (some alerts)
    ∧ ((∀ a ∈ alerts, a.notified = true) →
        mark_alert_read alert_id (some alerts) = some alerts)
    ∧ mark_alert_read alert_id none = none := by
  refine ⟨?_, ?_, ?_, rfl⟩
  · intro h
    rw [show mark_alert_read alert_id (some alerts) = some (mark_first alert_id alerts) from rfl,
      mark_first_of_not_mem alert_id alerts h]
    exact ⟨rfl, rfl⟩
  · show some (mark_first alert_id (mark_first alert_id alerts)) = _
    rw [mark_first_idem]
    rfl
  · intro h
    show some (mark_first alert_id alerts) = some alerts
    rw [mark_first_of_all_notified alert_id alerts h]

/-- Witness for claim C8: a concrete one-alert store; an unknown id is a
no-op, and marking the known id twice equals marking it once. -/
theorem mark_alert_read_spec_witness :
    mark_alert_read "nope" (some [sample_alert]) = some [sample_alert]
    ∧ mark_alert_read "alert-1" (mark_alert_read "alert-1" (some [sample_alert]))
        = mark_alert_read "alert-1" (some [sample_alert]) := by
  have H1 := mark_alert_read_spec [sample_alert] "nope" none
  have H2 := mark_alert_read_spec [sample_alert] "alert-1" none
  refine ⟨(H1.1 ?_).1, H2.2.1⟩
  intro a ha
  rw [List.mem_singleton] at ha
  subst ha
  simp [sample_alert]

/-- Claim C9: for every prior alerts state, `clear_all_alerts` followed by
`get_zombie_alerts` yields an empty alert set with `total_alerts = 0`,
`unread_count = 0`, and `last_check` equal to the timestamp stamped by the
clear operation (independent of the prior value). -/
theorem clear_all_alerts_then_get (prior : StoreRead AlertsDoc) (now : String) :
    get_zombie_alerts (clear_all_alerts prior now) =
      { alerts := [], last_check := now, total_alerts := 0, unread_count := 0 } := rfl

/-- Claim C10: `trigger_scan` modifies no persisted store (the whole world
state is returned unchanged) and always reports `success = true`, with
`scanned` the total asset count and `zombies` the total tombstone count read
from the current files. -/
theorem trigger_scan_frame (w : World) :
    (trigger_scan w).2 = w
    ∧ (trigger_scan w).1.success = true
    ∧ (trigger_scan w).1.scanned = asset_count w.asset_file
    ∧ (trigger_scan w).1.zombies = tombstone_count w.tombstone_file := by
  refine ⟨rfl, rfl, ?_, ?_⟩
  · cases h : w.asset_file <;> simp [trigger_scan, get_stats, asset_count, h]
  · cases h : w.tombstone_file <;> simp [trigger_scan, get_stats, tombstone_count, h]

end ProgrammerCorpses
